import Mathlib

/-!
Verification development for the Venom web crawler's crawl-orchestration
core: URL normalizer, admission filter, frontier (job queue with dedup and
retry bookkeeping), scheduler state machine, robots.txt gate and the
orchestrator's link-discovery step.

The TypeScript sources are embedded shallowly: pure functions become Lean
functions, the SQLite-backed store becomes an explicit `Store` value, and
the platform's WHATWG `URL` object is modelled by the `URLRecord`
structure together with a parser covering the hierarchical
(`scheme://host/path?query#fragment`) URLs the crawler admits; strings
that do not fit this shape parse to `none`, which corresponds to the
`new URL(...)` constructor throwing (both the model and the code reject
such URLs at the scheme gate).
-/

namespace Venom

/-! ## Character-list string helpers (models of the JS string operations) -/

/-- `leadsWith pat s` holds when `pat` is an initial segment of `s`. -/
def leadsWith : List Char → List Char → Bool
  | [], _ => true
  | _ :: _, [] => false
  | a :: as, b :: bs => a == b && leadsWith as bs

/-- `occursIn pat s`: `pat` occurs contiguously somewhere inside `s`
(model of JavaScript `String.prototype.includes`). -/
def occursIn : List Char → List Char → Bool
  | pat, [] => pat.isEmpty
  | pat, b :: bs => leadsWith pat (b :: bs) || occursIn pat bs

/-- String-level `includes`: `strIncludes s pat` means `s.includes(pat)`. -/
def strIncludes (s pat : String) : Bool :=
  occursIn pat.data s.data

/-- Split a character list at the first occurrence of `c`; `none` when `c`
does not occur. The separator itself is dropped. -/
def splitFirst (c : Char) : List Char → Option (List Char × List Char)
  | [] => none
  | x :: xs =>
    if x == c then some ([], xs)
    else
      match splitFirst c xs with
      | none => none
      | some (l, r) => some (x :: l, r)

/-- Take characters until one satisfying `p` is met; returns the prefix and
the remainder (which starts with the stopping character, if any). -/
def spanUntil (p : Char → Bool) (cs : List Char) : List Char × List Char :=
  (cs.takeWhile (fun c => !p c), cs.dropWhile (fun c => !p c))

/-- Split a character list on every occurrence of `c` (model of JavaScript
`String.prototype.split`): an input with no separator yields one group. -/
def splitAll (c : Char) (cs : List Char) : List (List Char) :=
  cs.foldr
    (fun ch acc =>
      if ch == c then [] :: acc
      else
        match acc with
        | [] => [[ch]]
        | g :: gs => (ch :: g) :: gs)
    [[]]

/-! ## WHATWG URL model

`URLRecord` models the platform `URL` object as the crawler uses it:
scheme, hostname, path (always beginning with `/`), an optional query
(a list of `name=value` pairs, `none` meaning no `?` part at all — the
state `searchParams.delete` leaves behind when the last pair is removed),
and an optional fragment. -/

structure URLRecord where
  scheme : String
  host : String
  path : String
  query : Option (List (String × String))
  fragment : Option String
  deriving Repr, DecidableEq

/-- Parse one `name=value` query component; a component without `=`
becomes a pair with empty value. -/
def parseParam (cs : List Char) : String × String :=
  match splitFirst '=' cs with
  | none => (String.mk cs, "")
  | some (k, v) => (String.mk k, String.mk v)

/-- Parse the query portion (the characters between `?` and `#`/end). -/
def parseQuery (cs : List Char) : List (String × String) :=
  if cs.isEmpty then []
  else (splitAll '&' cs).map parseParam

/-- Model of the `new URL(...)` constructor for hierarchical URLs:
`scheme://host[/path][?query][#fragment]`. Strings of any other shape
parse to `none`, standing for the constructor throwing. -/
def parseURLChars (cs : List Char) : Option URLRecord :=
  match splitFirst ':' cs with
  | none => none
  | some (schemeCs, rest) =>
    if schemeCs.isEmpty || !(schemeCs.all Char.isAlpha) then none
    else
      match rest with
      | '/' :: '/' :: rest2 =>
        let (hostCs, rest3) :=
          spanUntil (fun c => c == '/' || c == '?' || c == '#') rest2
        if hostCs.isEmpty then none
        else
          let (pathCs, rest4) :=
            match rest3 with
            | '/' :: _ => spanUntil (fun c => c == '?' || c == '#') rest3
            | _ => (['/'], rest3)
          let (query, rest5) :=
            match rest4 with
            | '?' :: qrest =>
              let (qCs, r) := spanUntil (fun c => c == '#') qrest
              (some (parseQuery qCs), r)
            | _ => (none, rest4)
          let fragment : Option String :=
            match rest5 with
            | '#' :: f => some (String.mk f)
            | _ => none
          some
            { scheme := String.mk schemeCs
              host := String.mk hostCs
              path := String.mk pathCs
              query := query
              fragment := fragment }
      | _ => none

/-- Parse a URL string. -/
def parseURL (s : String) : Option URLRecord :=
  parseURLChars s.data

/-- Serialize one query pair, as `URLSearchParams` does. -/
def paramToString (p : String × String) : String :=
  p.1 ++ "=" ++ p.2

/-- Serialize a query pair list. -/
def queryToString (l : List (String × String)) : String :=
  String.intercalate "&" (l.map paramToString)

/-- Model of `URL.prototype.toString`. -/
def urlToString (u : URLRecord) : String :=
  u.scheme ++ "://" ++ u.host ++ u.path
    ++ (match u.query with
        | none => ""
        | some l => "?" ++ queryToString l)
    ++ (match u.fragment with
        | none => ""
        | some f => "#" ++ f)

/-- The fixed set of tracking query parameters `normalizeUrl` deletes. -/
def trackingParams : List String :=
  ["utm_source", "utm_medium", "utm_campaign", "utm_content", "utm_term",
   "ref", "fbclid", "gclid"]

/-- Net effect on the query of the eight `urlObj.searchParams.delete(...)`
calls in `Crawler.normalizeUrl`: every pair named by a tracking parameter
is removed, and (per the URLSearchParams update steps) a query left empty
is set to null. -/
def stripTrackingQuery :
    Option (List (String × String)) → Option (List (String × String))
  | none => none
  | some l =>
    let kept := l.filter (fun p => !(trackingParams.contains p.1))
    if kept.isEmpty then none else some kept

/-- The eight `searchParams.delete` calls as a `URLRecord` transformer. -/
def deleteTrackingParams (u : URLRecord) : URLRecord :=
  { u with query := stripTrackingQuery u.query }

/-- `s.endsWith("/")` on the character list of `s`. -/
def endsWithChar (c : Char) (l : List Char) : Bool :=
  match l.getLast? with
  | some d => d == c
  | none => false

/-- The successful-parse body of `Crawler.normalizeUrl`: clear the
fragment (`urlObj.hash = ''`), delete the tracking parameters, serialize,
and strip one trailing slash (`normalized.slice(0, -1)`) when the
serialized form ends with `/` and the path is not the root. -/
def normalizeRecord (urlObj : URLRecord) : String :=
  let urlObj := deleteTrackingParams { urlObj with fragment := none }
  let normalized := urlToString urlObj
  if endsWithChar '/' normalized.data && urlObj.path != "/" then
    String.mk normalized.data.dropLast
  else normalized

/-- Embedding of `Crawler.normalizeUrl` (src/src/crawler/crawler.ts:75):
total on strings — an unparsable URL is returned unchanged (the `catch`
branch). -/
def normalizeUrl (url : String) : String :=
  match parseURL url with
  | none => url
  | some urlObj => normalizeRecord urlObj

/-- Embedding of `Crawler.getDomain` (src/src/crawler/crawler.ts:103):
the hostname, or `""` when the URL does not parse. -/
def getDomain (url : String) : String :=
  match parseURL url with
  | none => ""
  | some urlObj => urlObj.host

/-! ## Data model: priorities, statuses, jobs, captures, store

Embeddings of the types in src/src/types.ts and of the rows the SQLite
store (`VenomDatabase`) keeps. ISO-8601 timestamps are totally ordered by
their string form, so they are modelled as `Nat`. -/

/-- `JobPriority` from types.ts: `low | normal | high`. -/
inductive JobPriority where
  | low
  | normal
  | high
  deriving Repr, DecidableEq

/-- `CaptureStatus` from types.ts: exactly these six statuses exist;
in particular there is no distinct `skipped` status. -/
inductive CaptureStatus where
  | pending
  | crawling
  | processing
  | captioning
  | completed
  | failed
  deriving Repr, DecidableEq

/-- `CrawlJob` (types.ts) / a row of the `jobs` table. -/
structure CrawlJob where
  id : String
  url : String
  depth : Nat
  parentUrl : Option String
  priority : JobPriority
  status : CaptureStatus
  retryCount : Nat
  errorMessage : Option String
  createdAt : Nat
  updatedAt : Nat
  deriving Repr, DecidableEq

/-- A link extracted from a page (`ExtractedLink` in types.ts). -/
structure ExtractedLink where
  href : String
  text : String
  isInternal : Bool
  deriving Repr, DecidableEq

/-- The part of `PageCapture` (types.ts) the orchestration core reads:
identity, normalized URL, domain, depth, and the extracted links. -/
structure PageCapture where
  id : String
  url : String
  normalizedUrl : String
  domain : String
  depth : Nat
  links : List ExtractedLink
  deriving Repr, DecidableEq

/-- The persistent store (`VenomDatabase`): the `jobs` and `captures`
tables, as insertion-ordered lists of rows. -/
structure Store where
  jobs : List CrawlJob
  captures : List PageCapture
  deriving Repr, DecidableEq

/-- The empty store (freshly initialized schema). -/
def emptyStore : Store :=
  { jobs := [], captures := [] }

/-- Embedding of `VenomDatabase.urlExists` (the dedup probe `addUrl`
consults): a row of `jobs` whose **raw** `url` column equals the probe
string, or a row of `captures` whose `normalized_url` column equals the
probe string. -/
def urlExists (st : Store) (url : String) : Bool :=
  st.jobs.any (fun j => j.url == url)
    || st.captures.any (fun c => c.normalizedUrl == url)

/-- Embedding of `JobQueue.addUrl` (src/src/queue/job-queue.ts:57): skip
(return `none`) when `urlExists`, otherwise insert a fresh pending job.
`newId` stands for `randomUUID()` and `now` for `new Date()`. -/
def addUrl (st : Store) (url : String) (depth : Nat)
    (parentUrl : Option String) (priority : JobPriority)
    (newId : String) (now : Nat) : Option CrawlJob × Store :=
  if urlExists st url then (none, st)
  else
    let job : CrawlJob :=
      { id := newId
        url := url
        depth := depth
        parentUrl := parentUrl
        priority := priority
        status := CaptureStatus.pending
        retryCount := 0
        errorMessage := none
        createdAt := now
        updatedAt := now }
    (some job, { st with jobs := st.jobs ++ [job] })

/-- Embedding of `Venom.addSeeds`: each seed URL is added at depth 0 with
priority `high`; ids and timestamps are taken from the supplied streams. -/
def addSeeds (st : Store) (urls : List (String × String × Nat)) : Store :=
  urls.foldl (fun acc u => (addUrl acc u.1 0 none JobPriority.high u.2.1 u.2.2).2) st

/-- The `CASE priority WHEN 'high' THEN 1 WHEN 'normal' THEN 2 ELSE 3 END`
sort key of `getPendingJobs`. -/
def priorityRank : JobPriority → Nat
  | JobPriority.high => 1
  | JobPriority.normal => 2
  | JobPriority.low => 3

/-- The `ORDER BY` relation of `getPendingJobs`: priority rank first, then
`created_at` ascending. -/
def jobOrder (a b : CrawlJob) : Prop :=
  priorityRank a.priority < priorityRank b.priority
    ∨ (priorityRank a.priority = priorityRank b.priority
        ∧ a.createdAt ≤ b.createdAt)

instance : DecidableRel jobOrder := fun a b => by
  unfold jobOrder; infer_instance

instance : IsTotal CrawlJob jobOrder := by
  constructor
  intro a b
  unfold jobOrder
  omega

instance : IsTrans CrawlJob jobOrder := by
  constructor
  intro a b c hab hbc
  unfold jobOrder at *
  omega

/-- Embedding of `VenomDatabase.getPendingJobs`: the pending rows, ordered
by priority rank then creation time, truncated to `limit`. (The SQL
engine may order ties arbitrarily; a stable sort is one legitimate
refinement of the `ORDER BY` contract.) -/
def getPendingJobs (st : Store) (limit : Nat) : List CrawlJob :=
  ((st.jobs.filter (fun j => j.status == CaptureStatus.pending)).insertionSort
    jobOrder).take limit

/-- Embedding of `VenomDatabase.updateJobStatus` on a single row: the
status and error-message columns are overwritten (the error message
becomes NULL when the argument is omitted), `updated_at` is refreshed. -/
def setStatus (j : CrawlJob) (s : CaptureStatus) (e : Option String)
    (now : Nat) : CrawlJob :=
  { j with status := s, errorMessage := e, updatedAt := now }

/-- Embedding of `VenomDatabase.incrementJobRetry` on a single row. -/
def incrementRetry (j : CrawlJob) (now : Nat) : CrawlJob :=
  { j with retryCount := j.retryCount + 1, updatedAt := now }

/-! ## Scheduler state machine (`JobQueue.process`)

`process` dispatches a pending job by marking it `crawling`, runs the
handler, and on the handler's outcome either marks the job `completed`
or — after `incrementJobRetry` — requeues it as `pending` when the
*fetched snapshot's* `retryCount` is below `maxRetries`, else marks it
`failed`. Only rows with status `pending` are ever fetched for dispatch,
so the steps below leave any non-pending job untouched. -/

/-- One dispatch of a job whose handler fails, exactly as the `catch`
branch of `JobQueue.process` executes it: `updateJobStatus(id,'crawling')`
(dispatch), `incrementJobRetry`, then requeue or fail according to the
snapshot retry count `j.retryCount` taken when the batch was fetched. -/
def attemptFail (maxRetries : Nat) (errMsg : String) (now : Nat)
    (j : CrawlJob) : CrawlJob :=
  if j.status = CaptureStatus.pending then
    let snapshot := j.retryCount
    let j1 := setStatus j CaptureStatus.crawling none now
    let j2 := incrementRetry j1 now
    if snapshot < maxRetries then
      setStatus j2 CaptureStatus.pending (some errMsg) now
    else
      setStatus j2 CaptureStatus.failed (some errMsg) now
  else j

/-- One dispatch of a job whose handler resolves: `pending → crawling →
completed`. -/
def attemptSuccess (now : Nat) (j : CrawlJob) : CrawlJob :=
  if j.status = CaptureStatus.pending then
    let j1 := setStatus j CaptureStatus.crawling none now
    setStatus j1 CaptureStatus.completed none now
  else j

/-- A fresh job as `JobQueue.addUrl` creates it. -/
def freshJob (id url : String) (depth : Nat) (priority : JobPriority)
    (now : Nat) : CrawlJob :=
  { id := id
    url := url
    depth := depth
    parentUrl := none
    priority := priority
    status := CaptureStatus.pending
    retryCount := 0
    errorMessage := none
    createdAt := now
    updatedAt := now }

/-! ## Admission filter and link discovery (`Crawler`) -/

/-- The configuration fields `Crawler.shouldCrawl` and
`Crawler.getLinksToFollow` consume (from `CrawlerConfig` in types.ts). -/
structure CrawlerConfig where
  maxDepth : Nat
  maxUrlsPerDomain : Nat
  allowedDomains : List String
  blockedDomains : List String
  deriving Repr, DecidableEq

/-- Embedding of `Crawler.shouldCrawl` (src/src/crawler/crawler.ts:114).
`visited` is the crawler's in-memory `visitedUrls` set of normalized
URLs. Checks, in source order: visited set, URL scheme (parse failure
rejects), blocked-domain substrings, allowed-domain substrings. -/
def shouldCrawl (config : CrawlerConfig) (visited : List String)
    (url : String) : Bool :=
  let normalizedUrl := normalizeUrl url
  if visited.contains normalizedUrl then false
  else
    match parseURL url with
    | none => false
    | some urlObj =>
      if !(["http:", "https:"].contains (urlObj.scheme ++ ":")) then false
      else
        let domain := getDomain url
        if config.blockedDomains.any (fun d => strIncludes domain d) then false
        else if config.allowedDomains.length > 0
            && !(config.allowedDomains.any (fun d => strIncludes domain d)) then
          false
        else true

/-- Embedding of `Crawler.getLinksToFollow` (src/src/crawler/crawler.ts:273):
empty at `depth >= maxDepth`, otherwise the internal admissible links,
truncated by `slice(0, maxUrlsPerDomain)`. -/
def getLinksToFollow (config : CrawlerConfig) (visited : List String)
    (capture : PageCapture) (maxDepth : Nat) : List String :=
  if capture.depth ≥ maxDepth then []
  else
    ((capture.links.filter
        (fun link => link.isInternal && shouldCrawl config visited link.href)).map
      (fun link => link.href)).take config.maxUrlsPerDomain

/-- The link-discovery step of the `Venom.crawl` handler
(src/src/crawler/crawler.ts:502 in the orchestrator part): children are
extracted only when `job.depth < maxDepth`, and each link is enqueued
through `JobQueue.addUrl` at depth `job.depth + 1` with the job's URL as
parent. `ids`/`times` supply the fresh UUIDs and timestamps. -/
def discoverChildren (config : CrawlerConfig) (visited : List String)
    (st : Store) (job : CrawlJob) (capture : PageCapture)
    (ids : List String) (times : List Nat) : Store :=
  if job.depth < config.maxDepth then
    let links := getLinksToFollow config visited capture config.maxDepth
    (links.zip (ids.zip times)).foldl
      (fun acc l =>
        (addUrl acc l.1 (job.depth + 1) (some job.url) JobPriority.normal
          l.2.1 l.2.2).2)
      st
  else st

/-! ## Robots compliance gate (src/src/crawler/robots.ts)

The network fetch is modelled by passing in the response the network
would deliver (`FetchOutcome`); the external `robots-parser` library is
modelled by an abstract record of query functions over the fetched
robots.txt body. The per-domain module cache is explicit state. -/

/-- What `fetch(https://{domain}/robots.txt)` can come back with. -/
inductive FetchOutcome where
  | success (body : String)
  | httpError (status : Nat)
  | networkError
  deriving Repr, DecidableEq

/-- A parsed robots.txt as `robotsParser(robotsUrl, body)` returns it:
the model keeps the inputs; rule evaluation belongs to the external
library. -/
structure RobotsData where
  sourceUrl : String
  body : String
  deriving Repr, DecidableEq

/-- The query surface of the external `robots-parser` library. -/
structure RobotsLib where
  isAllowedQ : RobotsData → String → String → Option Bool
  getCrawlDelayQ : RobotsData → String → Option Nat
  getSitemapsQ : RobotsData → List String

/-- The module-level per-domain cache of parsed robots.txt results. -/
abbrev RobotsCache := List (String × RobotsData)

/-- Cache lookup (`robotsCache.has`/`get`). -/
def cacheLookup (cache : RobotsCache) (domain : String) : Option RobotsData :=
  match cache.find? (fun e => e.1 == domain) with
  | none => none
  | some e => some e.2

/-- Embedding of `fetchRobotsTxt` (src/src/crawler/robots.ts:14): serve
from the cache when present; otherwise consult the network outcome — a
success is parsed and cached, a non-success HTTP response or a network
error yields `none` and leaves the cache unchanged. -/
def fetchRobotsTxt (cache : RobotsCache) (domain : String)
    (resp : FetchOutcome) : Option RobotsData × RobotsCache :=
  match cacheLookup cache domain with
  | some p => (some p, cache)
  | none =>
    match resp with
    | FetchOutcome.success body =>
      let robotsUrl := "https://" ++ domain ++ "/robots.txt"
      let p : RobotsData := { sourceUrl := robotsUrl, body := body }
      (some p, cache ++ [(domain, p)])
    | FetchOutcome.httpError _ => (none, cache)
    | FetchOutcome.networkError => (none, cache)

/-- `RobotsTxtResult` from types.ts. -/
structure RobotsTxtResult where
  isAllowed : Bool
  crawlDelay : Option Nat
  sitemaps : List String
  deriving Repr, DecidableEq

/-- Embedding of `checkRobotsTxt` (src/src/crawler/robots.ts:57):
`new URL(url)` is unguarded, so an unparsable URL is a thrown exception
(`none`); otherwise fetch (through the cache) and either default to
allow-everything or query the parsed rules. -/
def checkRobotsTxt (lib : RobotsLib) (cache : RobotsCache) (url : String)
    (userAgent : String) (resp : FetchOutcome) :
    Option RobotsTxtResult × RobotsCache :=
  match parseURL url with
  | none => (none, cache)
  | some urlObj =>
    let domain := urlObj.host
    let (parsed, cache') := fetchRobotsTxt cache domain resp
    match parsed with
    | none =>
      (some { isAllowed := true, crawlDelay := none, sitemaps := [] }, cache')
    | some p =>
      let isAllowed :=
        match lib.isAllowedQ p url userAgent with
        | some b => b
        | none => true
      (some { isAllowed := isAllowed
              crawlDelay := lib.getCrawlDelayQ p userAgent
              sitemaps := lib.getSitemapsQ p }, cache')

/-! ## Orchestrator handler outcome (`Venom.crawl`) -/

/-- The counters of `CrawlStats` the handler touches. -/
structure CrawlStats where
  urlsDiscovered : Nat
  urlsCrawled : Nat
  urlsFailed : Nat
  urlsSkipped : Nat
  screenshotsTaken : Nat
  deriving Repr, DecidableEq

/-- How one handler invocation ends, as `JobQueue.process` sees it. -/
inductive HandlerOutcome where
  | resolved
  | thrown (msg : String)
  deriving Repr, DecidableEq

/-- The capture/skip branch of the `Venom.crawl` handler
(crawler.ts:470-483 of the orchestrator part): a `null` capture counts
as skipped and returns normally; a capture bumps the crawled and
screenshot counters; a crawl exception bumps `urlsFailed` and is
re-thrown to the scheduler. -/
def handleRenderResult (stats : CrawlStats)
    (render : Option (Option PageCapture)) : CrawlStats × HandlerOutcome :=
  match render with
  | none =>
    ({ stats with urlsFailed := stats.urlsFailed + 1 },
      HandlerOutcome.thrown "crawl error")
  | some none =>
    ({ stats with urlsSkipped := stats.urlsSkipped + 1 },
      HandlerOutcome.resolved)
  | some (some _) =>
    ({ stats with
        urlsCrawled := stats.urlsCrawled + 1
        screenshotsTaken := stats.screenshotsTaken + 1 },
      HandlerOutcome.resolved)

/-- How `JobQueue.process` settles a dispatched job from the handler's
outcome: a resolved handler means `completed`; a thrown one means the
retry policy of `attemptFail`. -/
def settleJob (maxRetries : Nat) (now : Nat) (j : CrawlJob) :
    HandlerOutcome → CrawlJob
  | HandlerOutcome.resolved => attemptSuccess now j
  | HandlerOutcome.thrown msg => attemptFail maxRetries msg now j

/-! ## Claim-specific concrete scenarios -/

/-- Store holding one job for the raw URL `https://a.com/x` (claim C1's
first insertion). -/
def c1Store : Store :=
  (addUrl emptyStore "https://a.com/x" 0 none JobPriority.high "id1" 0).2

/-- Configuration for the C9 scenario: per-domain cap of one URL. -/
def c9Config : CrawlerConfig :=
  { maxDepth := 2
    maxUrlsPerDomain := 1
    allowedDomains := []
    blockedDomains := [] }

/-- The C9 seed job for `https://a.com/`. -/
def c9SeedJob : CrawlJob :=
  freshJob "s1" "https://a.com/" 0 JobPriority.high 0

/-- The C9 capture of the seed page: two internal links on `a.com`. -/
def c9Capture : PageCapture :=
  { id := "c1"
    url := "https://a.com/"
    normalizedUrl := "https://a.com/"
    domain := "a.com"
    depth := 0
    links :=
      [{ href := "https://a.com/p1", text := "p1", isInternal := true },
       { href := "https://a.com/p2", text := "p2", isInternal := true }] }

/-- The C9 store after seeding and one link-discovery step. -/
def c9StoreAfter : Store :=
  discoverChildren c9Config ["https://a.com/"]
    (addSeeds emptyStore [("https://a.com/", "s1", 0)])
    c9SeedJob c9Capture ["id2"] [1]

/-! ## Helper lemmas -/

/-- Everything `getPendingJobs` returns carries status `pending` (the SQL
`WHERE status = 'pending'` filter). -/
theorem pending_of_mem_getPendingJobs (st : Store) (limit : Nat)
    (j : CrawlJob) (h : j ∈ getPendingJobs st limit) :
    j.status = CaptureStatus.pending := by
  unfold getPendingJobs at h
  have h1 := List.mem_of_mem_take h
  rw [List.mem_insertionSort] at h1
  have h2 := List.of_mem_filter h1
  simpa using h2

/-- Closed form of `k ≤ maxRetries` failing dispatches of a fresh job:
the job is back to `pending` with retry count `k` and (after the first
failure) the error message recorded. -/
theorem attemptFail_iterate (m : Nat) (e : String) (now t : Nat)
    (id url : String) (d : Nat) (pr : JobPriority) :
    ∀ k, k ≤ m →
      (attemptFail m e now)^[k] (freshJob id url d pr t)
        = if k = 0 then freshJob id url d pr t
          else
            { freshJob id url d pr t with
                retryCount := k
                errorMessage := some e
                updatedAt := now } := by
  intro k
  induction k with
  | zero => intro _; simp
  | succ n ih =>
    intro h
    have hn : n ≤ m := Nat.le_of_succ_le h
    have hlt : n < m := h
    rw [Function.iterate_succ_apply', ih hn]
    by_cases h0 : n = 0
    · subst h0
      simp [attemptFail, setStatus, incrementRetry, freshJob, hlt]
    · simp [h0, attemptFail, setStatus, incrementRetry, freshJob, hlt]

/-- A boolean that is not `true` is `false`. -/
theorem bool_eq_false {b : Bool} (h : ¬ b = true) : b = false := by
  cases b
  · rfl
  · exact absurd rfl h

/-- A boolean whose negation is `true` is `false`. -/
theorem bool_neg_true {b : Bool} (h : (!b) = true) : b = false := by
  cases b
  · rfl
  · cases h

/-- Appending the colon to a scheme is injective, so the code's protocol
comparison `protocol == "http:"` coincides with `scheme == "http"`. -/
theorem append_colon_inj (s t : String) : s ++ ":" = t ++ ":" ↔ s = t := by
  constructor
  · intro h
    have h2 := congrArg String.data h
    simp [String.data_append] at h2
    cases s
    cases t
    exact congrArg String.mk h2
  · intro h
    rw [h]

/-! ## Claims -/

/-- Claim C5: `normalizeUrl` is total and returns an unparsable input
unchanged; `getDomain` likewise never fails and returns the empty string
on an unparsable input. (Totality is inherent: both are Lean functions on
all of `String`; this theorem settles the behaviour on the parse-failure
branch.) -/
theorem C5_unparsable_url_total (s : String) (h : parseURL s = none) :
    normalizeUrl s = s ∧ getDomain s = "" := by
  unfold normalizeUrl getDomain
  rw [h]
  exact ⟨rfl, rfl⟩

/-- Witness for C5 at the concrete unparsable input `"not a url"`. -/
theorem C5_unparsable_url_total_witness :
    parseURL "not a url" = none ∧
      (normalizeUrl "not a url" = "not a url" ∧ getDomain "not a url" = "") :=
  ⟨by decide, C5_unparsable_url_total "not a url" (by decide)⟩

/-- Claim C1, counterexample: dedup is *not* by canonical URL. The URLs
`https://a.com/x` and `https://a.com/x/` share the normalized form
`https://a.com/x`, yet once a Job exists for the first, `addUrl` of the
second still creates a Job (it returns `some`, not `none`), because
`urlExists` compares the raw `url` column of `jobs` and compares the raw
probe string against `normalized_url` of `captures`. -/
theorem C1_counterexample :
    normalizeUrl "https://a.com/x/" = normalizeUrl "https://a.com/x" ∧
      (addUrl c1Store "https://a.com/x/" 0 none JobPriority.high "id2" 1).1
        ≠ none := by
  decide

/-- Claim C1 as amended: Frontier deduplication is by exact raw URL
string — `addUrl u` returns `none` precisely when a Job with raw URL `u`
exists or a capture whose stored normalized URL equals `u` exists
(`urlExists`); after any `addUrl u`, `u` exists in the store, so adding
the same raw string again returns `none`. URLs equal only after
normalization may each receive a Job. -/
theorem C1_amended_raw_url_dedup (st : Store) (url : String) (depth : Nat)
    (parentUrl : Option String) (priority : JobPriority) (newId : String)
    (now : Nat) :
    ((addUrl st url depth parentUrl priority newId now).1 = none
        ↔ urlExists st url = true) ∧
      urlExists (addUrl st url depth parentUrl priority newId now).2 url
        = true ∧
      (addUrl (addUrl st url depth parentUrl priority newId now).2 url depth
          parentUrl priority newId now).1 = none := by
  unfold addUrl
  by_cases h : urlExists st url = true
  · simp [h]
  · have h' : urlExists st url = false := by
      cases hb : urlExists st url
      · rfl
      · exact absurd hb h
    have hex : urlExists
        { st with jobs := st.jobs ++
            [{ id := newId, url := url, depth := depth,
               parentUrl := parentUrl, priority := priority,
               status := CaptureStatus.pending, retryCount := 0,
               errorMessage := none, createdAt := now,
               updatedAt := now }] } url = true := by
      unfold urlExists
      simp
    simp [h', hex]

/-- Claim C9, counterexample: `maxUrlsPerDomain` is not a per-domain
budget over the crawl. With a cap of 1, seeding `https://a.com/` and
running one link-discovery step over a capture with two internal `a.com`
links leaves the store with 2 Jobs whose URL has domain `a.com`,
exceeding the cap. -/
theorem C9_counterexample :
    (c9StoreAfter.jobs.filter
        (fun j => getDomain j.url == "a.com")).length = 2 ∧
      c9Config.maxUrlsPerDomain = 1 := by
  decide

/-- Claim C9 as amended: the cap is enforced per capture, not per domain —
`getLinksToFollow` never hands the orchestrator more than
`maxUrlsPerDomain` links from one capture (the `slice(0, n)` bound), so
each capture contributes at most that many child Jobs; the total number
of Jobs for one domain over a crawl may exceed the cap. -/
theorem C9_amended_per_capture_cap (config : CrawlerConfig)
    (visited : List String) (capture : PageCapture) (maxDepth : Nat) :
    (getLinksToFollow config visited capture maxDepth).length
      ≤ config.maxUrlsPerDomain := by
  unfold getLinksToFollow
  split
  · simp
  · calc (((capture.links.filter
        (fun link => link.isInternal
          && shouldCrawl config visited link.href)).map
        (fun link => link.href)).take config.maxUrlsPerDomain).length
        ≤ config.maxUrlsPerDomain := List.length_take_le _ _

/-- Claim C10: a `null` capture makes the orchestrator's handler bump
`urlsSkipped` and return normally, so the scheduler settles the Job as
`completed` with its retry count untouched; `CaptureStatus` has no
distinct `skipped` member; and since only `pending` rows are ever fetched
for dispatch, the completed Job is never retried. -/
theorem C10_null_capture_counts_completed (stats : CrawlStats)
    (j : CrawlJob) (maxRetries now : Nat)
    (hj : j.status = CaptureStatus.pending) :
    (handleRenderResult stats (some none)).1.urlsSkipped
        = stats.urlsSkipped + 1 ∧
      (handleRenderResult stats (some none)).2 = HandlerOutcome.resolved ∧
      (settleJob maxRetries now j
          (handleRenderResult stats (some none)).2).status
        = CaptureStatus.completed ∧
      (settleJob maxRetries now j
          (handleRenderResult stats (some none)).2).retryCount
        = j.retryCount ∧
      (∀ s : CaptureStatus,
        s = CaptureStatus.pending ∨ s = CaptureStatus.crawling
          ∨ s = CaptureStatus.processing ∨ s = CaptureStatus.captioning
          ∨ s = CaptureStatus.completed ∨ s = CaptureStatus.failed) ∧
      (∀ (st : Store) (limit : Nat) (j2 : CrawlJob),
        j2 ∈ getPendingJobs st limit → j2.status = CaptureStatus.pending) := by
  refine ⟨rfl, rfl, ?_, ?_, ?_, ?_⟩
  · simp [handleRenderResult, settleJob, attemptSuccess, setStatus, hj]
  · simp [handleRenderResult, settleJob, attemptSuccess, setStatus, hj]
  · intro s; cases s <;> simp
  · intro st limit j2 h
    exact pending_of_mem_getPendingJobs st limit j2 h

/-- Witness for C10 at a concrete pending job and zeroed counters. -/
theorem C10_null_capture_counts_completed_witness :
    (freshJob "w" "https://a.com/" 0 JobPriority.normal 0).status
        = CaptureStatus.pending ∧
      ((handleRenderResult
            { urlsDiscovered := 0, urlsCrawled := 0, urlsFailed := 0,
              urlsSkipped := 0, screenshotsTaken := 0 }
            (some none)).1.urlsSkipped
          = 0 + 1 ∧
        (handleRenderResult
            { urlsDiscovered := 0, urlsCrawled := 0, urlsFailed := 0,
              urlsSkipped := 0, screenshotsTaken := 0 }
            (some none)).2 = HandlerOutcome.resolved ∧
        (settleJob 3 7 (freshJob "w" "https://a.com/" 0 JobPriority.normal 0)
            (handleRenderResult
              { urlsDiscovered := 0, urlsCrawled := 0, urlsFailed := 0,
                urlsSkipped := 0, screenshotsTaken := 0 }
              (some none)).2).status
          = CaptureStatus.completed ∧
        (settleJob 3 7 (freshJob "w" "https://a.com/" 0 JobPriority.normal 0)
            (handleRenderResult
              { urlsDiscovered := 0, urlsCrawled := 0, urlsFailed := 0,
                urlsSkipped := 0, screenshotsTaken := 0 }
              (some none)).2).retryCount
          = (freshJob "w" "https://a.com/" 0 JobPriority.normal 0).retryCount ∧
        (∀ s : CaptureStatus,
          s = CaptureStatus.pending ∨ s = CaptureStatus.crawling
            ∨ s = CaptureStatus.processing ∨ s = CaptureStatus.captioning
            ∨ s = CaptureStatus.completed ∨ s = CaptureStatus.failed) ∧
        (∀ (st : Store) (limit : Nat) (j2 : CrawlJob),
          j2 ∈ getPendingJobs st limit
            → j2.status = CaptureStatus.pending)) :=
  ⟨by decide,
    C10_null_capture_counts_completed
      { urlsDiscovered := 0, urlsCrawled := 0, urlsFailed := 0,
        urlsSkipped := 0, screenshotsTaken := 0 }
      (freshJob "w" "https://a.com/" 0 JobPriority.normal 0) 3 7 (by decide)⟩

/-- Claim C2: with an always-failing handler, a fresh job goes
`pending → crawling → pending` (error recorded, retry count incremented)
on each of the first `maxRetries` dispatches — after `k ≤ maxRetries`
failures it is `pending` with retry count `k` — then the next failing
dispatch leaves it `failed` with retry count `maxRetries + 1`; a `failed`
job is fixed by every scheduler step, and every dispatch of a pending job
passes through `crawling`. -/
theorem C2_retry_then_fail (m k : Nat) (e : String) (now t : Nat)
    (id url : String) (d : Nat) (pr : JobPriority) (hk : k ≤ m) :
    ((attemptFail m e now)^[k] (freshJob id url d pr t)).status
        = CaptureStatus.pending ∧
      ((attemptFail m e now)^[k] (freshJob id url d pr t)).retryCount = k ∧
      (k ≠ 0 →
        ((attemptFail m e now)^[k] (freshJob id url d pr t)).errorMessage
          = some e) ∧
      ((attemptFail m e now)^[m + 1] (freshJob id url d pr t)).status
        = CaptureStatus.failed ∧
      ((attemptFail m e now)^[m + 1] (freshJob id url d pr t)).retryCount
        = m + 1 ∧
      (∀ j : CrawlJob, j.status = CaptureStatus.failed →
        attemptFail m e now j = j ∧ attemptSuccess now j = j) ∧
      (∀ j : CrawlJob, j.status = CaptureStatus.pending →
        (setStatus j CaptureStatus.crawling none now).status
          = CaptureStatus.crawling) := by
  have hiter := attemptFail_iterate m e now t id url d pr
  have hfail :
      (attemptFail m e now)^[m + 1] (freshJob id url d pr t)
        = { freshJob id url d pr t with
              retryCount := m + 1
              errorMessage := some e
              updatedAt := now
              status := CaptureStatus.failed } := by
    rw [Function.iterate_succ_apply', hiter m le_rfl]
    by_cases h0 : m = 0
    · subst h0
      simp [attemptFail, setStatus, incrementRetry, freshJob]
    · simp [h0, attemptFail, setStatus, incrementRetry, freshJob]
  refine ⟨?_, ?_, ?_, ?_, ?_, ?_, ?_⟩
  · rw [hiter k hk]
    by_cases h0 : k = 0 <;> simp [h0, freshJob]
  · rw [hiter k hk]
    by_cases h0 : k = 0
    · subst h0; simp [freshJob]
    · simp [h0]
  · intro h0
    rw [hiter k hk]
    simp [h0]
  · rw [hfail]
  · rw [hfail]
  · intro j hj
    constructor
    · unfold attemptFail
      rw [hj]
      simp
    · unfold attemptSuccess
      rw [hj]
      simp
  · intro j _
    rfl

/-- Witness for C2 at `maxRetries = 3`, observed after `k = 3` failures. -/
theorem C2_retry_then_fail_witness :
    3 ≤ 3 ∧
      (((attemptFail 3 "boom" 9)^[3]
            (freshJob "w2" "https://b.com/" 0 JobPriority.normal 0)).status
          = CaptureStatus.pending ∧
        ((attemptFail 3 "boom" 9)^[3]
            (freshJob "w2" "https://b.com/" 0 JobPriority.normal 0)).retryCount
          = 3 ∧
        ((3 : Nat) ≠ 0 →
          ((attemptFail 3 "boom" 9)^[3]
              (freshJob "w2" "https://b.com/" 0
                JobPriority.normal 0)).errorMessage
            = some "boom") ∧
        ((attemptFail 3 "boom" 9)^[3 + 1]
            (freshJob "w2" "https://b.com/" 0 JobPriority.normal 0)).status
          = CaptureStatus.failed ∧
        ((attemptFail 3 "boom" 9)^[3 + 1]
            (freshJob "w2" "https://b.com/" 0 JobPriority.normal 0)).retryCount
          = 3 + 1 ∧
        (∀ j : CrawlJob, j.status = CaptureStatus.failed →
          attemptFail 3 "boom" 9 j = j ∧ attemptSuccess 9 j = j) ∧
        (∀ j : CrawlJob, j.status = CaptureStatus.pending →
          (setStatus j CaptureStatus.crawling none 9).status
            = CaptureStatus.crawling)) :=
  ⟨by decide,
    C2_retry_then_fail 3 3 "boom" 9 0 "w2" "https://b.com/" 0
      JobPriority.normal (by decide)⟩

/-- Claim C3: every batch `getPendingJobs` returns is ordered by priority
tier (high before normal before low) and, within a tier, by ascending
creation time; the batch contains only pending jobs; and for three jobs
inserted in order [low, high, normal] (at creation times 0, 1, 2) the
batch — which the scheduler dispatches in order — lists the high-priority
URL first, then normal, then low. -/
theorem C3_batch_ordering (st : Store) (limit : Nat) :
    List.Sorted jobOrder (getPendingJobs st limit) ∧
      (∀ j ∈ getPendingJobs st limit, j.status = CaptureStatus.pending) ∧
      (getPendingJobs
          (addUrl
            (addUrl
              (addUrl emptyStore "https://a.com/low" 0 none JobPriority.low
                "i1" 0).2
              "https://a.com/high" 0 none JobPriority.high "i2" 1).2
            "https://a.com/normal" 0 none JobPriority.normal "i3" 2).2
          10).map (fun j => j.url)
        = ["https://a.com/high", "https://a.com/normal",
           "https://a.com/low"] := by
  refine ⟨?_, ?_, ?_⟩
  · unfold getPendingJobs
    exact
      (List.sorted_insertionSort jobOrder _).sublist (List.take_sublist _ _)
  · intro j hj
    exact pending_of_mem_getPendingJobs st limit j hj
  · decide

/-- Claim C8: a capture at depth at least `maxDepth` yields no links to
follow whatever its link list holds; the orchestrator's link-discovery
step leaves the store untouched for a job at depth at least the
configured maximum; and seeding a single URL into an empty store yields
exactly one Job. With `maxDepth = 0` a depth-0 seed satisfies both
hypotheses, so the crawl holds exactly one Job and discovers zero
children. -/
theorem C8_depth_zero_children (config : CrawlerConfig)
    (visited : List String) (capture : PageCapture) (maxDepth : Nat)
    (st : Store) (job : CrawlJob) (ids : List String) (times : List Nat)
    (seedUrl seedId : String) (seedTime : Nat)
    (hcap : capture.depth ≥ maxDepth) (hjob : job.depth ≥ config.maxDepth) :
    getLinksToFollow config visited capture maxDepth = [] ∧
      discoverChildren config visited st job capture ids times = st ∧
      (addSeeds emptyStore [(seedUrl, seedId, seedTime)]).jobs.length = 1 := by
  refine ⟨?_, ?_, ?_⟩
  · unfold getLinksToFollow
    simp [hcap]
  · unfold discoverChildren
    have : ¬ job.depth < config.maxDepth := Nat.not_lt.mpr hjob
    simp [this]
  · simp [addSeeds, addUrl, urlExists, emptyStore]

/-- Witness for C8: `maxDepth = 0`, a depth-0 capture with two internal
admissible links, and a depth-0 seed job. -/
theorem C8_depth_zero_children_witness :
    (c9Capture.depth ≥ 0 ∧ c9SeedJob.depth ≥ 0) ∧
      (getLinksToFollow
            { maxDepth := 0, maxUrlsPerDomain := 100, allowedDomains := [],
              blockedDomains := [] } [] c9Capture 0 = [] ∧
        discoverChildren
            { maxDepth := 0, maxUrlsPerDomain := 100, allowedDomains := [],
              blockedDomains := [] } [] emptyStore c9SeedJob c9Capture
            ["x1"] [3]
          = emptyStore ∧
        (addSeeds emptyStore [("https://a.com/", "s1", 0)]).jobs.length
          = 1) :=
  ⟨by decide,
    C8_depth_zero_children
      { maxDepth := 0, maxUrlsPerDomain := 100, allowedDomains := [],
        blockedDomains := [] }
      [] c9Capture 0 emptyStore c9SeedJob ["x1"] [3] "https://a.com/" "s1" 0
      (by decide) (by decide)⟩

/-- Claim C7: when the robots.txt fetch for a domain comes back as a
non-success HTTP response or a network error, `checkRobotsTxt` answers
allow-everything (`isAllowed = true`, no crawl delay, no sitemaps), and
the cache is left exactly as it was — in particular a domain absent from
the cache is still absent, so the next call for it consults the network
again instead of being served from the cache. -/
theorem C7_robots_failure_not_cached (lib : RobotsLib) (cache : RobotsCache)
    (url userAgent : String) (resp : FetchOutcome) (status : Nat)
    (u : URLRecord) (hu : parseURL url = some u)
    (hfail : resp = FetchOutcome.httpError status
      ∨ resp = FetchOutcome.networkError)
    (hmiss : cacheLookup cache u.host = none) :
    (checkRobotsTxt lib cache url userAgent resp).1
        = some { isAllowed := true, crawlDelay := none, sitemaps := [] } ∧
      (checkRobotsTxt lib cache url userAgent resp).2 = cache ∧
      cacheLookup (checkRobotsTxt lib cache url userAgent resp).2 u.host
        = none := by
  have hfetch : fetchRobotsTxt cache u.host resp = (none, cache) := by
    unfold fetchRobotsTxt
    rw [hmiss]
    rcases hfail with h | h <;> rw [h]
  unfold checkRobotsTxt
  rw [hu]
  simp only [hfetch]
  exact ⟨trivial, trivial, hmiss⟩

/-- Witness for C7: an empty cache, a 404 response for `a.com`, and a
library model that never answers. -/
theorem C7_robots_failure_not_cached_witness :
    parseURL "https://a.com/x"
        = some { scheme := "https", host := "a.com", path := "/x",
                 query := none, fragment := none } ∧
      (FetchOutcome.httpError 404 = FetchOutcome.httpError 404
          ∨ FetchOutcome.httpError 404 = FetchOutcome.networkError) ∧
      cacheLookup ([] : RobotsCache)
          ({ scheme := "https", host := "a.com", path := "/x",
             query := none, fragment := none } : URLRecord).host = none ∧
      ((checkRobotsTxt
            { isAllowedQ := fun _ _ _ => none,
              getCrawlDelayQ := fun _ _ => none,
              getSitemapsQ := fun _ => [] }
            [] "https://a.com/x" "Venom/1.0" (FetchOutcome.httpError 404)).1
          = some { isAllowed := true, crawlDelay := none, sitemaps := [] } ∧
        (checkRobotsTxt
            { isAllowedQ := fun _ _ _ => none,
              getCrawlDelayQ := fun _ _ => none,
              getSitemapsQ := fun _ => [] }
            [] "https://a.com/x" "Venom/1.0" (FetchOutcome.httpError 404)).2
          = [] ∧
        cacheLookup
            (checkRobotsTxt
              { isAllowedQ := fun _ _ _ => none,
                getCrawlDelayQ := fun _ _ => none,
                getSitemapsQ := fun _ => [] }
              [] "https://a.com/x" "Venom/1.0"
              (FetchOutcome.httpError 404)).2
            ({ scheme := "https", host := "a.com", path := "/x",
               query := none, fragment := none } : URLRecord).host
          = none) :=
  ⟨by decide, Or.inl rfl, rfl,
    C7_robots_failure_not_cached
      { isAllowedQ := fun _ _ _ => none,
        getCrawlDelayQ := fun _ _ => none,
        getSitemapsQ := fun _ => [] }
      [] "https://a.com/x" "Venom/1.0" (FetchOutcome.httpError 404) 404
      { scheme := "https", host := "a.com", path := "/x",
        query := none, fragment := none }
      (by decide) (Or.inl rfl) rfl⟩

/-- Claim C6: `shouldCrawl` rejects exactly when the normalized URL is in
the visited set, or the URL's scheme is neither http nor https (an
unparsable URL included), or the hostname contains some blocked-domain
entry as a substring, or the allowed-domain list is non-empty and the
hostname contains none of its entries. Concretely, blocking
`ads.example.com` rejects `https://ads.example.com/x`; allowing `wiki.org`
admits the subdomain page `https://en.wiki.org/page` and rejects
`https://other.com/page`. -/
theorem C6_admission_filter (config : CrawlerConfig)
    (visited : List String) (url : String) :
    (shouldCrawl config visited url = false
        ↔ (normalizeUrl url ∈ visited
            ∨ (∀ u : URLRecord, parseURL url = some u
                → ¬(u.scheme = "http" ∨ u.scheme = "https"))
            ∨ (∃ d ∈ config.blockedDomains,
                strIncludes (getDomain url) d = true)
            ∨ (config.allowedDomains ≠ []
                ∧ ∀ d ∈ config.allowedDomains,
                    strIncludes (getDomain url) d = false))) ∧
      shouldCrawl
          { maxDepth := 2, maxUrlsPerDomain := 100, allowedDomains := [],
            blockedDomains := ["ads.example.com"] }
          [] "https://ads.example.com/x" = false ∧
      shouldCrawl
          { maxDepth := 2, maxUrlsPerDomain := 100,
            allowedDomains := ["wiki.org"], blockedDomains := [] }
          [] "https://en.wiki.org/page" = true ∧
      shouldCrawl
          { maxDepth := 2, maxUrlsPerDomain := 100,
            allowedDomains := ["wiki.org"], blockedDomains := [] }
          [] "https://other.com/page" = false := by
  refine ⟨?_, by decide, by decide, by decide⟩
  by_cases hv : visited.contains (normalizeUrl url) = true
  · have hv' : normalizeUrl url ∈ visited := by simpa using hv
    have hcomp : shouldCrawl config visited url = false := by
      unfold shouldCrawl
      simp [hv']
    exact iff_of_true hcomp (Or.inl hv')
  · have hv0 : visited.contains (normalizeUrl url) = false :=
      bool_eq_false hv
    have hv' : normalizeUrl url ∉ visited := by simpa using hv0
    cases hp : parseURL url with
    | none =>
      have hcomp : shouldCrawl config visited url = false := by
        unfold shouldCrawl
        simp [hv', hp]
      refine iff_of_true hcomp (Or.inr (Or.inl ?_))
      intro u hu
      cases hu
    | some u =>
      by_cases hsch : u.scheme = "http" ∨ u.scheme = "https"
      · have hsp : (u.scheme ++ ":" = "http:") ∨ (u.scheme ++ ":" = "https:") := by
          rcases hsch with h | h
          · exact Or.inl (by rw [h]; decide)
          · exact Or.inr (by rw [h]; decide)
        by_cases hb : config.blockedDomains.any
            (fun d => strIncludes (getDomain url) d) = true
        · have hbE : ∃ d ∈ config.blockedDomains,
              strIncludes (getDomain url) d = true := by
            simpa using hb
          have hcomp : shouldCrawl config visited url = false := by
            unfold shouldCrawl
            rcases hsp with h | h <;> simp [hv', hp, h, hbE]
          exact iff_of_true hcomp (Or.inr (Or.inr (Or.inl hbE)))
        · have hb0 : config.blockedDomains.any
              (fun d => strIncludes (getDomain url) d) = false :=
            bool_eq_false hb
          have hbF : ¬∃ d ∈ config.blockedDomains,
              strIncludes (getDomain url) d = true := by
            simpa using hb0
          by_cases ha : (config.allowedDomains.length > 0
              && !(config.allowedDomains.any
                    (fun d => strIncludes (getDomain url) d))) = true
          · have haT := Bool.and_eq_true_iff.mp ha
            have hlenT : 0 < config.allowedDomains.length := by
              simpa using haT.1
            have hallF : ∀ d ∈ config.allowedDomains,
                strIncludes (getDomain url) d = false := by
              have hanyF := bool_neg_true haT.2
              exact fun d hd =>
                bool_eq_false (List.any_eq_false.mp hanyF d hd)
            have ha' : config.allowedDomains ≠ []
                ∧ ∀ d ∈ config.allowedDomains,
                    strIncludes (getDomain url) d = false := by
              refine ⟨?_, hallF⟩
              intro hnil
              rw [hnil] at hlenT
              simp at hlenT
            have hcomp : shouldCrawl config visited url = false := by
              unfold shouldCrawl
              rcases hsp with h | h <;>
                simp [hv', hp, h, hbF, hlenT, hallF] <;> exact hallF
            exact iff_of_true hcomp (Or.inr (Or.inr (Or.inr ha')))
          · have ha0 : (config.allowedDomains.length > 0
                && !(config.allowedDomains.any
                      (fun d => strIncludes (getDomain url) d))) = false :=
              bool_eq_false ha
            have hcomp : shouldCrawl config visited url = true := by
              unfold shouldCrawl
              by_cases hlen : 0 < config.allowedDomains.length
              · have hanyT : config.allowedDomains.any
                    (fun d => strIncludes (getDomain url) d) = true := by
                  cases hany : config.allowedDomains.any
                      (fun d => strIncludes (getDomain url) d) with
                  | true => rfl
                  | false =>
                    rw [hany] at ha0
                    simp [hlen] at ha0
                have haE : ∃ d ∈ config.allowedDomains,
                    strIncludes (getDomain url) d = true := by
                  simpa using hanyT
                have haNF : ¬(∀ d ∈ config.allowedDomains,
                    strIncludes (getDomain url) d = false) := by
                  rcases haE with ⟨d, hd, ht⟩
                  intro hall
                  rw [hall d hd] at ht
                  cases ht
                rcases hsp with h | h <;> simp [hv', hp, h, hbF, hlen, haNF]
              · rcases hsp with h | h <;> simp [hv', hp, h, hbF, hlen]
            refine iff_of_false ?_ ?_
            · intro h
              rw [hcomp] at h
              cases h
            · rintro (h1 | h2 | h3 | h4)
              · exact hv' h1
              · exact (h2 u rfl) hsch
              · exact hbF h3
              · have hlen : config.allowedDomains.length > 0 :=
                  List.length_pos.mpr h4.1
                cases hany : config.allowedDomains.any
                    (fun d => strIncludes (getDomain url) d) with
                | true =>
                  rcases List.any_eq_true.mp hany with ⟨d, hd, hpd⟩
                  have := h4.2 d hd
                  rw [this] at hpd
                  cases hpd
                | false =>
                  rw [hany] at ha0
                  simp [hlen] at ha0
      · have hs1 : ¬(u.scheme ++ ":" = "http:") := by
          intro h
          exact hsch (Or.inl ((append_colon_inj u.scheme "http").mp h))
        have hs2 : ¬(u.scheme ++ ":" = "https:") := by
          intro h
          exact hsch (Or.inr ((append_colon_inj u.scheme "https").mp h))
        have hcomp : shouldCrawl config visited url = false := by
          unfold shouldCrawl
          simp [hv', hp, hs1, hs2]
        refine iff_of_true hcomp (Or.inr (Or.inl ?_))
        intro v hv2
        cases hv2
        exact hsch

/-- Strings with equal character data are equal. -/
theorem string_ext {s t : String} (h : s.data = t.data) : s = t := by
  cases s
  cases t
  exact congrArg String.mk h

/-- `endsWithChar` only looks at the last segment of an append. -/
theorem endsWithChar_append (c : Char) (l1 l2 : List Char) (h : l2 ≠ []) :
    endsWithChar c (l1 ++ l2) = endsWithChar c l2 := by
  unfold endsWithChar
  rw [List.getLast?_append_of_ne_nil l1 h]

/-- A list closed by `c` ends with `c`. -/
theorem endsWithChar_concat (c : Char) (l : List Char) :
    endsWithChar c (l ++ [c]) = true := by
  unfold endsWithChar
  rw [List.getLast?_concat l]
  simp

/-- `normalizeRecord` only consumes the scheme, host, path and the
tracking-stripped query: two URL records that differ only in fragment
and/or tracking query parameters normalize identically. -/
theorem normalizeRecord_congr (u1 u2 : URLRecord)
    (hs : u1.scheme = u2.scheme) (hh : u1.host = u2.host)
    (hp : u1.path = u2.path)
    (hq : stripTrackingQuery u1.query = stripTrackingQuery u2.query) :
    normalizeRecord u1 = normalizeRecord u2 := by
  have hclean : deleteTrackingParams { u1 with fragment := none }
      = deleteTrackingParams { u2 with fragment := none } := by
    unfold deleteTrackingParams
    cases u1
    cases u2
    simp_all
  unfold normalizeRecord
  rw [hclean]

/-- Adding a trailing slash to a non-empty path that does not already end
in a slash changes nothing after normalization, provided no query
survives tracking-parameter removal (only then does the serialized URL
end in the slash the code strips). -/
theorem normalizeRecord_trailing_slash (u : URLRecord) (p : String)
    (hq : stripTrackingQuery u.query = none) (hp : p ≠ "")
    (he : endsWithChar '/' p.data = false) :
    normalizeRecord { u with path := p ++ "/" }
      = normalizeRecord { u with path := p } := by
  have hpne : p.data ≠ [] := by
    intro h
    apply hp
    exact string_ext h
  have hv1 : deleteTrackingParams
      { { u with path := p ++ "/" } with fragment := none }
      = { scheme := u.scheme, host := u.host, path := p ++ "/",
          query := none, fragment := none } := by
    unfold deleteTrackingParams
    cases u
    simp_all
  have hv2 : deleteTrackingParams
      { { u with path := p } with fragment := none }
      = { scheme := u.scheme, host := u.host, path := p,
          query := none, fragment := none } := by
    unfold deleteTrackingParams
    cases u
    simp_all
  have hd1 : (urlToString
      { scheme := u.scheme, host := u.host, path := p ++ "/",
        query := none, fragment := none }).data
      = (u.scheme.data ++ ([':', '/', '/'] ++ u.host.data))
          ++ (p.data ++ ['/']) := by
    have hsep : ("://" : String).data = [':', '/', '/'] := rfl
    have hslash : ("/" : String).data = ['/'] := rfl
    simp [urlToString, String.data_append, hsep, hslash,
      List.append_assoc]
  have hd2 : (urlToString
      { scheme := u.scheme, host := u.host, path := p,
        query := none, fragment := none }).data
      = (u.scheme.data ++ ([':', '/', '/'] ++ u.host.data)) ++ p.data := by
    have hsep : ("://" : String).data = [':', '/', '/'] := rfl
    simp [urlToString, String.data_append, hsep, List.append_assoc]
  have hroot : ((p ++ "/" : String) != "/") = true := by
    have hne : (p ++ "/" : String) ≠ "/" := by
      intro hcontra
      apply hpne
      have hdata := congrArg String.data hcontra
      rw [String.data_append] at hdata
      have hslash : ("/" : String).data = ['/'] := rfl
      rw [hslash] at hdata
      have hlen := congrArg List.length hdata
      simp at hlen
      exact List.eq_nil_of_length_eq_zero hlen
    simp [bne_iff_ne, hne]
  have hc1 : endsWithChar '/'
      ((u.scheme.data ++ ([':', '/', '/'] ++ u.host.data))
        ++ (p.data ++ ['/'])) = true := by
    rw [endsWithChar_append _ _ _ (by simp)]
    rw [show p.data ++ ['/'] = p.data ++ ['/'] from rfl]
    exact endsWithChar_concat '/' p.data
  have hc2 : endsWithChar '/'
      ((u.scheme.data ++ ([':', '/', '/'] ++ u.host.data)) ++ p.data)
      = false := by
    rw [endsWithChar_append _ _ _ hpne]
    exact he
  unfold normalizeRecord
  rw [hv1, hv2]
  simp only [hd1, hd2, hc1, hc2, hroot, Bool.true_and, Bool.false_and,
    if_true, if_false, Bool.false_eq_true, if_neg, ite_false, ite_true]
  rw [List.dropLast_append_of_ne_nil _ (by simp : p.data ++ ['/'] ≠ [])]
  rw [List.dropLast_concat]
  exact string_ext (by rw [hd2])

/-- Claim C4 as amended: `normalize` is invariant under fragments and
tracking query parameters (any two URL records agreeing on scheme, host
and path whose queries agree after tracking-parameter removal normalize
identically), and under a trailing slash on a non-root path *provided no
query string survives* — the code only strips the slash when the
serialized URL ends with it, which a query prevents. The claim's concrete
example holds: `https://a.com/x/?utm_source=y#frag` and
`https://a.com/x` both normalize to `https://a.com/x`. -/
theorem C4_amended_normalize_equiv :
    (∀ u1 u2 : URLRecord,
        u1.scheme = u2.scheme → u1.host = u2.host → u1.path = u2.path →
        stripTrackingQuery u1.query = stripTrackingQuery u2.query →
        normalizeRecord u1 = normalizeRecord u2) ∧
      (∀ (u : URLRecord) (p : String),
          stripTrackingQuery u.query = none → p ≠ "" →
          endsWithChar '/' p.data = false →
          normalizeRecord { u with path := p ++ "/" }
            = normalizeRecord { u with path := p }) ∧
      normalizeUrl "https://a.com/x/?utm_source=y#frag"
        = "https://a.com/x" ∧
      normalizeUrl "https://a.com/x" = "https://a.com/x" :=
  ⟨normalizeRecord_congr, normalizeRecord_trailing_slash,
    by decide, by decide⟩

/-- Witness for C4's amended universal parts at concrete records: the
record of `https://a.com/x?utm_source=y#frag` against that of
`https://a.com/x`, and the trailing-slash pair `/x/` versus `/x`. -/
theorem C4_amended_normalize_equiv_witness :
    (({ scheme := "https", host := "a.com", path := "/x",
        query := some [("utm_source", "y")],
        fragment := some "frag" } : URLRecord).scheme
        = ({ scheme := "https", host := "a.com", path := "/x",
             query := none, fragment := none } : URLRecord).scheme ∧
      stripTrackingQuery (some [("utm_source", "y")])
        = stripTrackingQuery none ∧
      stripTrackingQuery
          ({ scheme := "https", host := "a.com", path := "/x",
             query := none, fragment := none } : URLRecord).query
        = none ∧
      ("/x" : String) ≠ "" ∧
      endsWithChar '/' ("/x" : String).data = false) ∧
      normalizeRecord
          { scheme := "https", host := "a.com", path := "/x",
            query := some [("utm_source", "y")], fragment := some "frag" }
        = normalizeRecord
            { scheme := "https", host := "a.com", path := "/x",
              query := none, fragment := none } ∧
      normalizeRecord
          { scheme := "https", host := "a.com", path := ("/x" : String) ++ "/",
            query := none, fragment := none }
        = normalizeRecord
            { scheme := "https", host := "a.com", path := "/x",
              query := none, fragment := none } :=
  ⟨⟨by decide, by decide, by decide, by decide, by decide⟩,
    C4_amended_normalize_equiv.1
      { scheme := "https", host := "a.com", path := "/x",
        query := some [("utm_source", "y")], fragment := some "frag" }
      { scheme := "https", host := "a.com", path := "/x",
        query := none, fragment := none }
      rfl rfl rfl (by decide),
    C4_amended_normalize_equiv.2.1
      { scheme := "https", host := "a.com", path := "/x",
        query := none, fragment := none }
      "/x" (by decide) (by decide) (by decide)⟩

/-- Claim C4, counterexample: `https://a.com/x/?q=1` and
`https://a.com/x?q=1` differ only by a trailing slash on the non-root
path (their parses agree except for the path), yet they normalize to
different canonical forms — the serialized URL ends in `1`, not `/`, so
the slash is never stripped. -/
theorem C4_counterexample :
    parseURL "https://a.com/x/?q=1"
        = some { scheme := "https", host := "a.com", path := "/x/",
                 query := some [("q", "1")], fragment := none } ∧
      parseURL "https://a.com/x?q=1"
        = some { scheme := "https", host := "a.com", path := "/x",
                 query := some [("q", "1")], fragment := none } ∧
      normalizeUrl "https://a.com/x/?q=1"
        ≠ normalizeUrl "https://a.com/x?q=1" := by
  decide

end Venom
